import Mathlib

/-
  Verification of the dumpdisc optical-disc reader against its specification.

  Each definition below is a shallow embedding of a function of the Python
  source (src/dumpdisc/...); the source file, class and line numbers are given
  in the doc comments.  Byte strings are modelled as lists of naturals, one
  entry per byte; Python exceptions are modelled by an explicit error result.
-/

namespace DumpDisc

/-- Byte strings are lists of naturals, one entry per byte (each in [0, 256)). -/
abbrev Bytes := List Nat

/-- The Python exceptions raised by the decoders.  Constructors that carry a
natural carry the sector number named in the exception message. -/
inductive PyErr where
  | ioShort
  | syncInvalid
  | typeConcat
  | edcInvalid (sector : Nat)
  | eccInvalid (sector : Nat)
  | submodeMismatch (sector : Nat)
  | strictSize (sector : Nat)
  | modeInvalid (sector : Nat)
  | badBlock
  | keyErr
  | indexErr
  | attrErr
  | typeErr
  | valueErr
  | outOfFuel
  deriving DecidableEq

/-- Result of a Python call: a normal return value or a raised exception. -/
inductive Res (α : Type) where
  | ok (a : α)
  | err (e : PyErr)
  deriving DecidableEq

/-- Little-endian encoding of a 32-bit value, as struct.pack "<I" does. -/
def le4 (n : Nat) : Bytes := [n % 256, n / 256 % 256, n / 65536 % 256, n / 16777216 % 256]

/-- Big-endian encoding of a 32-bit value, as struct.pack ">I" does. -/
def be4 (n : Nat) : Bytes := [n / 16777216 % 256, n / 65536 % 256, n / 256 % 256, n % 256]

/-- Little-endian encoding of a 16-bit value, as struct.pack "<H" does. -/
def le2 (n : Nat) : Bytes := [n % 256, n / 256 % 256]

/-- Big-endian encoding of a 16-bit value, as struct.pack ">H" does. -/
def be2 (n : Nat) : Bytes := [n / 256 % 256, n % 256]

/-- Decoding of 4 bytes as a little-endian 32-bit value (struct.unpack "I"
on a little-endian host, the form used by the sector parser). -/
def de4 (b : Bytes) : Nat :=
  b.getD 0 0 + 256 * b.getD 1 0 + 65536 * b.getD 2 0 + 16777216 * b.getD 3 0

/-- Decoding of 4 bytes as a big-endian 32-bit value (struct.unpack ">I"). -/
def de4be (b : Bytes) : Nat :=
  16777216 * b.getD 0 0 + 65536 * b.getD 1 0 + 256 * b.getD 2 0 + b.getD 3 0

/-- Decoding of 2 bytes as a little-endian 16-bit value (struct.unpack "<H"). -/
def de2 (b : Bytes) : Nat := b.getD 0 0 + 256 * b.getD 1 0

/-- Decoding of 2 bytes as a big-endian 16-bit value (struct.unpack ">H"). -/
def de2be (b : Bytes) : Nat := 256 * b.getD 0 0 + b.getD 1 0

/-- One entry of the EDC lookup table (src/dumpdisc/cdrom.py, EDC.__init__,
lines 36-42): starting from the index, eight rounds of
edc = (edc >> 1) ^ (0xD8018001 if edc & 1 else 0).  The source materialises
this as a 256-entry table indexed by (edc ^ byte) & 0xff; since that index is
always below 256, indexing the table equals applying this function. -/
def edcTableEntry (i : Nat) : Nat :=
  (List.range 8).foldl (fun edc _ => (edc >>> 1) ^^^ (if edc &&& 1 = 1 then 0xD8018001 else 0)) i

/-- One step of the EDC accumulation (src/dumpdisc/cdrom.py, EDC.compute,
line 47): edc = (edc >> 8) ^ table[(edc ^ b) & 0xff]. -/
def edcStep (edc b : Nat) : Nat := (edc >>> 8) ^^^ edcTableEntry ((edc ^^^ b) &&& 0xff)

/-- EDC over a byte string (src/dumpdisc/cdrom.py, EDC.compute, lines 44-48):
fold edcStep over the data starting from 0. -/
def edcCompute (data : Bytes) : Nat := data.foldl edcStep 0

/-- The forward GF(2^8) table of the ECC codec (src/dumpdisc/cdrom.py,
ECC.__init__, line 55): f_table[i] = (i << 1) ^ (0x11d if i & 0x80 else 0). -/
def fTable (i : Nat) : Nat := (i <<< 1) ^^^ (if i &&& 0x80 = 0 then 0 else 0x11d)

/-- The backward GF(2^8) table of the ECC codec (src/dumpdisc/cdrom.py,
ECC.__init__, line 57), built by the assignments b_table[i ^ f_table[i]] = i
for i in range(256) over an initially zero table. -/
def bTableList : List Nat :=
  (List.range 256).foldl (fun t i => t.set (i ^^^ fTable i) i) (List.replicate 256 0)

/-- Lookup in the backward GF(2^8) table. -/
def bTable (k : Nat) : Nat := bTableList.getD k 0

/-- One iteration of the inner loop of ECC._compute_pq (src/dumpdisc/cdrom.py,
lines 66-73).  The state is (index, ecc_a, ecc_b); the source reads
temp = data[index], advances index by minor_inc subtracting size once when the
sum reaches it, and updates ecc_a = f_table[ecc_a ^ temp], ecc_b = ecc_b ^ temp.
Python data[index] is modelled as getD with default 0; every index is below
size, so the default is never returned when the data covers the region. -/
def pqStep (data : Bytes) (size minorInc : Nat) (st : Nat × Nat × Nat) : Nat × Nat × Nat :=
  let temp := data.getD st.1 0
  let i2 := st.1 + minorInc
  (if size ≤ i2 then i2 - size else i2, fTable (st.2.1 ^^^ temp), st.2.2 ^^^ temp)

/-- The inner loop of ECC._compute_pq, iterated minor_count times. -/
def pqLoop (data : Bytes) (size minorInc : Nat) : Nat → (Nat × Nat × Nat) → Nat × Nat × Nat
  | 0, st => st
  | m + 1, st => pqLoop data size minorInc m (pqStep data size minorInc st)

/-- One column of ECC._compute_pq (src/dumpdisc/cdrom.py, lines 62-76): start
at index (major >> 1) * major_mult + (major & 1) with ecc_a = ecc_b = 0, run
the inner loop minor_count times, then ecc_a = b_table[f_table[ecc_a] ^ ecc_b];
the pair written to the two parity halves is (ecc_a, ecc_a ^ ecc_b). -/
def pqMajor (data : Bytes) (majorMult minorCount size minorInc major : Nat) : Nat × Nat :=
  let st := pqLoop data size minorInc minorCount ((major >>> 1) * majorMult + (major &&& 1), 0, 0)
  let a := bTable (fTable st.2.1 ^^^ st.2.2)
  (a, a ^^^ st.2.2)

/-- ECC._compute_pq (src/dumpdisc/cdrom.py, lines 59-77): the result byte
string is the first parity half (result[major] entries) followed by the
second half (result[major + major_count] entries). -/
def computePQ (data : Bytes) (majorCount minorCount majorMult minorInc : Nat) : Bytes :=
  let size := majorCount * minorCount
  (List.range majorCount).map (fun major => (pqMajor data majorMult minorCount size minorInc major).1) ++
    (List.range majorCount).map (fun major => (pqMajor data majorMult minorCount size minorInc major).2)

/-- ECC.compute (src/dumpdisc/cdrom.py, lines 79-82): P parity with parameters
(86, 24, 2, 86) over the data, then Q parity with parameters (52, 43, 86, 88)
over the data followed by the P parity; the result is P followed by Q. -/
def eccCompute (data : Bytes) : Bytes :=
  let p := computePQ data 86 24 2 86
  let q := computePQ (data ++ p) 52 43 86 88
  p ++ q

/-- Modelled from the spec (section 4.2): one inner-loop iteration with the
index advanced by minor_inc and wrapped modulo major_count * minor_count. -/
def pqStepSpec (data : Bytes) (size minorInc : Nat) (st : Nat × Nat × Nat) : Nat × Nat × Nat :=
  let temp := data.getD st.1 0
  ((st.1 + minorInc) % size, fTable (st.2.1 ^^^ temp), st.2.2 ^^^ temp)

/-- Modelled from the spec (section 4.2): the inner loop repeated
minor_count times. -/
def pqLoopSpec (data : Bytes) (size minorInc : Nat) : Nat → (Nat × Nat × Nat) → Nat × Nat × Nat
  | 0, st => st
  | m + 1, st => pqLoopSpec data size minorInc m (pqStepSpec data size minorInc st)

/-- Modelled from the spec (section 4.2): one column of the parity
computation, with the modulo wrap. -/
def pqMajorSpec (data : Bytes) (majorMult minorCount size minorInc major : Nat) : Nat × Nat :=
  let st := pqLoopSpec data size minorInc minorCount ((major >>> 1) * majorMult + (major &&& 1), 0, 0)
  let a := bTable (fTable st.2.1 ^^^ st.2.2)
  (a, a ^^^ st.2.2)

/-- Modelled from the spec (section 4.2): compute_pq with the modulo wrap. -/
def computePQSpec (data : Bytes) (majorCount minorCount majorMult minorInc : Nat) : Bytes :=
  let size := majorCount * minorCount
  (List.range majorCount).map (fun major => (pqMajorSpec data majorMult minorCount size minorInc major).1) ++
    (List.range majorCount).map (fun major => (pqMajorSpec data majorMult minorCount size minorInc major).2)

/-- Modelled from the spec (sections 4.2 and 8): the full sector parity is the
P parity with parameters (86, 24, 2, 86) over the input followed by the Q
parity with parameters (52, 43, 86, 88) over the input concatenated with the
P parity. -/
def eccComputeSpec (data : Bytes) : Bytes :=
  let p := computePQSpec data 86 24 2 86
  let q := computePQSpec (data ++ p) 52 43 86 88
  p ++ q

/-- The 12-byte sync pattern of a raw CD sector (src/dumpdisc/image.py,
RawCDImage._read_sector, line 127). -/
def syncBytes : Bytes := [0, 255, 255, 255, 255, 255, 255, 255, 255, 255, 255, 0]

/-- RawCDImage._read_raw_sector (src/dumpdisc/image.py, lines 113-121): when an
address is given the cursor moves there; the 2352 bytes at the cursor are read
(an IOError is raised when fewer are available) and the cursor advances.  The
underlying file is the byte string f; the result pairs the sector bytes with
the new cursor. -/
def readRawSector (f : Bytes) (cur : Nat) (address : Option Nat) : Res (Bytes × Nat) :=
  let c := address.getD cur
  let data := (f.drop (c * 2352)).take 2352
  if data.length ≠ 2352 then .err .ioShort else .ok (data, c + 1)

/-- RawCDImage._read_sector (src/dumpdisc/image.py, lines 123-154).  The sector
is split into sync(12) || offset(3) || mode(1) || payload(2336).  Deviations of
the source from its intent are modelled faithfully:
the mode 1 branch evaluates sync + offset + mode + data where mode is the
unpacked int, so Python raises a TypeError (bytes cannot be concatenated with
an int) before any checksum is compared; this is the typeConcat error.
In mode 2, after the subheader duplication check, Form 1 verifies the ECC and
then the shared EDC check runs, Form 2 runs only the shared EDC check; then
under strict_size a data length other than 2048 raises (the strictSize error).
Errors name the sector number current_sector - 1. -/
def readSector (strict : Bool) (f : Bytes) (cur : Nat) (address : Option Nat) : Res (Bytes × Nat) :=
  match readRawSector f cur address with
  | .err e => .err e
  | .ok (sector, c1) =>
    let sync := sector.take 12
    let mode := sector.getD 15 0
    let payload := sector.drop 16
    if sync ≠ syncBytes then .err .syncInvalid
    else if mode = 0 then .ok (List.replicate 2048 0, c1)
    else if mode = 1 then .err .typeConcat
    else if mode = 2 then
      let subheader := payload.take 8
      let rest := payload.drop 8
      if subheader.getD 2 0 ≠ subheader.getD 6 0 then .err (.submodeMismatch (c1 - 1))
      else if subheader.getD 2 0 &&& 0x20 = 0 then
        let d := rest.take 2048
        let edc := de4 ((rest.drop 2048).take 4)
        if rest.drop 2052 ≠ eccCompute (List.replicate 4 0 ++ subheader ++ d ++ le4 edc) then
          .err (.eccInvalid (c1 - 1))
        else if edc ≠ edcCompute (subheader ++ d) then .err (.edcInvalid (c1 - 1))
        else if strict ∧ d.length ≠ 2048 then .err (.strictSize (c1 - 1))
        else .ok (d, c1)
      else
        let d := rest.take 2324
        let edc := de4 ((rest.drop 2324).take 4)
        if edc ≠ edcCompute (subheader ++ d) then .err (.edcInvalid (c1 - 1))
        else if strict ∧ d.length ≠ 2048 then .err (.strictSize (c1 - 1))
        else .ok (d, c1)
    else .err (.modeInvalid (c1 - 1))

/-- The loop of RawCDImage._read_blocks (src/dumpdisc/image.py, lines 158-159):
count - 1 further cursor reads appended to the accumulated data. -/
def readBlocksAux (strict : Bool) (f : Bytes) : Nat → Nat → Bytes → Res (Bytes × Nat)
  | 0, cur, acc => .ok (acc, cur)
  | n + 1, cur, acc =>
    match readSector strict f cur none with
    | .err e => .err e
    | .ok (d, c2) => readBlocksAux strict f n c2 (acc ++ d)

/-- RawCDImage.read_blocks (src/dumpdisc/image.py, lines 162-163): the strict
path, one addressed sector read followed by count - 1 cursor reads. -/
def rawReadBlocks (f : Bytes) (cur : Nat) (address : Option Nat) (count : Nat) : Res (Bytes × Nat) :=
  match readSector true f cur address with
  | .err e => .err e
  | .ok (d, c2) => readBlocksAux true f (count - 1) c2 d

/-- RawCDImage.read_blocks_data (src/dumpdisc/image.py, lines 165-166): the
non-strict path. -/
def rawReadBlocksData (f : Bytes) (cur : Nat) (address : Option Nat) (count : Nat) : Res (Bytes × Nat) :=
  match readSector false f cur address with
  | .err e => .err e
  | .ok (d, c2) => readBlocksAux false f (count - 1) c2 d

/-- The bad-area test of DDRescueImage.read_blocks (src/dumpdisc/image.py,
lines 256-258): some area satisfies
(area[0] <= start and start < area[1]) or (area[0] <= end and end < area[1]),
where start and end are the byte bounds of the requested read. -/
def ddrescueHit (badAreas : List (Nat × Nat)) (start stop : Nat) : Bool :=
  badAreas.any (fun area => (area.1 ≤ start ∧ start < area.2) ∨ (area.1 ≤ stop ∧ stop < area.2))

/-- DDRescueImage.read_blocks (src/dumpdisc/image.py, lines 253-259):
start = (address or current_block) * block_size, end = start plus
count * block_size; when the bad-area test fires an IOError (BadBlock) is
raised, otherwise the read is delegated to the inner image. -/
def ddrescueReadBlocks (badAreas : List (Nat × Nat)) (blockSize currentBlock : Nat)
    (address : Option Nat) (count : Nat) (innerRead : Option Nat → Nat → Res Bytes) : Res Bytes :=
  let start := (address.getD currentBlock) * blockSize
  let stop := start + count * blockSize
  if ddrescueHit badAreas start stop then .err .badBlock else innerRead address count

/-- The byte interval [s, e) intersects the byte interval [a, b). -/
def intervalsOverlap (s e a b : Nat) : Prop := a < e ∧ s < b

/-- The loop body of ExtentGroup.read_blocks (src/dumpdisc/apple.py,
lines 265-275).  The extents are (start, size) pairs of naturals (unpacked
from ">HH"); address and count are Python ints, so they are modelled as
integers: the source decrements address by every extent size, which drives it
negative once a read has continued past the end of an extent.  Falling off the
list raises ValueError (read past extent group end).  readExt stands for
self._partition.read_extent_blocks. -/
def extentReadGo (readExt : Int → Int → List Int) :
    List (Nat × Nat) → Int → Int → List Int → Res (List Int)
  | [], _, _, _ => .err .valueErr
  | (start, size) :: rest, address, count, acc =>
    let s : Int := (size : Int)
    let hit := address < s
    let chunk := if address + count ≤ s then count else s - address
    let acc2 := if hit then acc ++ readExt ((start : Int) + address) chunk else acc
    let count2 := if hit then count - chunk else count
    if count2 = 0 then .ok acc2 else extentReadGo readExt rest (address - s) count2 acc2

/-- ExtentGroup.read_blocks (src/dumpdisc/apple.py, lines 265-275). -/
def extentGroupReadBlocks (extents : List (Nat × Nat)) (readExt : Int → Int → List Int)
    (address count : Int) : Res (List Int) :=
  extentReadGo readExt extents address count []

/-- ExtentGroup.size (src/dumpdisc/apple.py, lines 280-282): the sum of the
extent block counts. -/
def extentGroupSize (extents : List (Nat × Nat)) : Nat :=
  (extents.map (fun p => p.2)).sum

/-- The allocation-block addresses covered by an extent group, in group
order: each (start, size) extent contributes start, start+1, ... -/
def extentGroupBlocks (extents : List (Nat × Nat)) : List Int :=
  (extents.map (fun p => (List.range p.2).map (fun i => ((p.1 + i : Nat) : Int)))).flatten

/-- An instantiation of read_extent_blocks that returns the list of
allocation-block addresses it was asked to read (one entry per block),
used to observe which blocks ExtentGroup.read_blocks touches. -/
def blockAddrRead : Int → Int → List Int :=
  fun s n => (List.range n.toNat).map (fun i => s + (i : Int))

/-- ISOImage.read_blocks as seen through ISO9660.read_blocks
(src/dumpdisc/image.py, lines 68-71 and src/dumpdisc/iso9660.py, lines 88-89):
the image is an array of fixed-size logical blocks, modelled as a function
from the block address to the block's bytes; a read of count blocks at an
address concatenates them. -/
def isoReadBlocks (blocks : Nat → Bytes) (address count : Nat) : Bytes :=
  ((List.range count).map (fun i => blocks (address + i))).flatten

/-- ISO9660.read_extent (src/dumpdisc/iso9660.py, lines 91-94):
remainder = (-size) mod block_size (Python modulo, hence in [0, block_size));
size // block_size blocks are read, plus one when size is not a multiple;
when the remainder is non-zero the final remainder bytes are cut off
(data[:-remainder]). -/
def isoReadExtent (blockSize : Nat) (blocks : Nat → Bytes) (address size : Nat) : Bytes :=
  let remainder := (blockSize - size % blockSize) % blockSize
  let data := isoReadBlocks blocks address (size / blockSize + if size % blockSize ≠ 0 then 1 else 0)
  if remainder = 0 then data else data.take (data.length - remainder)

/-- Validity of a Gregorian calendar date-time as enforced by Python's
datetime.datetime constructor (raising ValueError otherwise), which
DirectoryRecord.__init__ calls at src/dumpdisc/iso9660.py line 388. -/
def dateTimeValid (year month day hour minute second : Nat) : Bool :=
  let leap := year % 4 = 0 ∧ (year % 100 ≠ 0 ∨ year % 400 = 0)
  let dim : Nat :=
    if month = 1 ∨ month = 3 ∨ month = 5 ∨ month = 7 ∨ month = 8 ∨ month = 10 ∨ month = 12 then 31
    else if month = 4 ∨ month = 6 ∨ month = 9 ∨ month = 11 then 30
    else if leap then 29 else 28
  decide (1 ≤ month ∧ month ≤ 12 ∧ 1 ≤ day ∧ day ≤ dim ∧ hour ≤ 23 ∧ minute ≤ 59 ∧ second ≤ 59)

/-- An ISO 9660 directory record as decoded by DirectoryRecord.__init__
(src/dumpdisc/iso9660.py, lines 363-395).  The boolean flag fields are the
bits the source extracts from the flags byte. -/
structure DirRecord where
  length : Nat
  extAttr : Nat
  extent : Nat
  dataLength : Nat
  year : Nat
  month : Nat
  day : Nat
  hour : Nat
  minute : Nat
  second : Nat
  tz : Nat
  fileUnitSize : Nat
  interleaveGap : Nat
  volumeSeq : Nat
  identifier : Bytes
  isHidden : Bool
  isDirectory : Bool
  isAssociated : Bool
  hasFormatInfo : Bool
  hasPermissions : Bool
  isFinal : Bool
  deriving DecidableEq

/-- DirectoryRecord.__init__ (src/dumpdisc/iso9660.py, lines 363-395): unpack
the 33-byte fixed header (format "BB<I>I<I>IBBBBBBBBBB<H>HB"), slice the
identifier, then check in order: length non-zero; length plus the extended
attribute length no larger than the buffer; the little- and big-endian copies
of extent, data length and volume sequence number equal; the recording
date-time valid (datetime.datetime raises otherwise; the year byte is an
offset from 1900).  A buffer shorter than the 33-byte header makes
struct.unpack raise. -/
def parseDirRecord (data : Bytes) : Res DirRecord :=
  if data.length < 33 then .err .valueErr else
  let len := data.getD 0 0
  let extAttr := data.getD 1 0
  let extentLE := de4 ((data.drop 2).take 4)
  let extentBE := de4be ((data.drop 6).take 4)
  let dlenLE := de4 ((data.drop 10).take 4)
  let dlenBE := de4be ((data.drop 14).take 4)
  let year := data.getD 18 0
  let month := data.getD 19 0
  let day := data.getD 20 0
  let hour := data.getD 21 0
  let minute := data.getD 22 0
  let second := data.getD 23 0
  let tz := data.getD 24 0
  let flags := data.getD 25 0
  let fileUnitSize := data.getD 26 0
  let interleaveGap := data.getD 27 0
  let volseqLE := de2 ((data.drop 28).take 2)
  let volseqBE := de2be ((data.drop 30).take 2)
  let idLen := data.getD 32 0
  let ident := (data.drop 33).take idLen
  if len = 0 then .err .valueErr
  else if data.length < len + extAttr then .err .valueErr
  else if extentLE ≠ extentBE then .err .valueErr
  else if dlenLE ≠ dlenBE then .err .valueErr
  else if volseqLE ≠ volseqBE then .err .valueErr
  else if ¬ dateTimeValid (year + 1900) month day hour minute second then .err .valueErr
  else .ok {
    length := len, extAttr := extAttr, extent := extentLE, dataLength := dlenLE,
    year := year, month := month, day := day, hour := hour, minute := minute,
    second := second, tz := tz, fileUnitSize := fileUnitSize,
    interleaveGap := interleaveGap, volumeSeq := volseqLE, identifier := ident,
    isHidden := flags &&& 0x01 = 0x01, isDirectory := flags &&& 0x02 = 0x02,
    isAssociated := flags &&& 0x04 = 0x04, hasFormatInfo := flags &&& 0x08 = 0x08,
    hasPermissions := flags &&& 0x10 = 0x10, isFinal := flags &&& 0x80 = 0x80 }

/-- The enumeration loop of DirectoryRecord.get_childs (src/dumpdisc/iso9660.py,
lines 415-421): while the buffer is non-empty and its first byte is non-zero,
parse a record, append it, stop after a record with the final flag, otherwise
advance by the record length plus the extended attribute length.  The loop
advances at least one byte per iteration, so a fuel of the buffer length plus
one never runs out. -/
def childLoop : Nat → Bytes → List DirRecord → Res (List DirRecord)
  | 0, _, _ => .err .outOfFuel
  | fuel + 1, data, acc =>
    if 0 < data.length ∧ 0 < data.getD 0 0 then
      match parseDirRecord data with
      | .err e => .err e
      | .ok r =>
        if r.isFinal then .ok (acc ++ [r])
        else childLoop fuel (data.drop (r.length + r.extAttr)) (acc ++ [r])
    else .ok acc

/-- DirectoryRecord.get_childs (src/dumpdisc/iso9660.py, lines 405-422): raise
unless the record is a directory; read data_length bytes at the extent; skip
the first two entries (advancing by data[0] + data[1] twice, the . and ..
records); then run the enumeration loop. -/
def isoGetChilds (blockSize : Nat) (blocks : Nat → Bytes) (rec : DirRecord) :
    Res (List DirRecord) :=
  if ¬ rec.isDirectory then .err .valueErr else
  let data0 := isoReadExtent blockSize blocks rec.extent rec.dataLength
  let data1 := data0.drop (data0.getD 0 0 + data0.getD 1 0)
  let data2 := data1.drop (data1.getD 0 0 + data1.getD 1 0)
  childLoop (data2.length + 1) data2 []

/-- The identifier field "CD001" as bytes. -/
def cd001 : Bytes := [67, 68, 48, 48, 49]

/-- A decoded ISO 9660 volume descriptor.  For the Primary and Supplementary
kinds only the dispatch and the identifier and version checks are modelled
(primaryChecked / supplementaryChecked mean those checks passed and the
constructor proceeds to the further validation of
PartitionVolumeDescriptor.__init__, which reads path tables from the image
and is irrelevant to the descriptor-header claims). -/
inductive VDesc where
  | bootRecord (bootSystemId bootId custom : Bytes)
  | primaryChecked
  | supplementaryChecked
  | partitionDesc (payload : Bytes)
  | terminator (payload : Bytes)
  deriving DecidableEq

/-- VolumeDescriptor.from_sector (src/dumpdisc/iso9660.py, lines 118-124) and
the registered subclass constructors.  The sector is unpacked as
type(1) || identifier(5) || version(1) || payload(2041) (a sector of any other
length makes _unpack raise).  Dispatch on the type byte:
type 0 (BootRecordVolumeDescriptor, lines 130-141) checks identifier and
version after slicing its fields; types 1 and 2 (Primary / Supplementary,
lines 154-171) check identifier then version before any other validation;
type 3 (VolumePartitionDescriptor, lines 333-336) and type 255
(VolumeDescriptorSetTerminator, lines 341-344) run only
VolumeDescriptor.__init__, which stores the fields and checks nothing;
any other type byte raises. -/
def vdFromSector (sector : Bytes) : Res VDesc :=
  if sector.length ≠ 2048 then .err .valueErr else
  let t := sector.getD 0 0
  let idf := (sector.drop 1).take 5
  let ver := sector.getD 6 0
  let payload := sector.drop 7
  if t = 0 then
    if idf ≠ cd001 then .err .valueErr
    else if ver ≠ 1 then .err .valueErr
    else .ok (.bootRecord (payload.take 32) ((payload.drop 32).take 32) (payload.drop 64))
  else if t = 1 then
    if idf ≠ cd001 then .err .valueErr
    else if ver ≠ 1 then .err .valueErr
    else .ok .primaryChecked
  else if t = 2 then
    if idf ≠ cd001 then .err .valueErr
    else if ver ≠ 1 then .err .valueErr
    else .ok .supplementaryChecked
  else if t = 3 then .ok (.partitionDesc payload)
  else if t = 255 then .ok (.terminator payload)
  else .err .valueErr

/-- File.streams for ISO 9660 files (src/dumpdisc/iso9660.py, lines 489-491):
always the one-element list [0]. -/
def isoFileStreams : List Nat := [0]

/-- File.streams for HFS files (src/dumpdisc/apple.py, lines 690-697): 0 is
appended when the data fork size is positive, then 1 when the resource fork
size is positive. -/
def hfsFileStreams (dataSize resourceSize : Nat) : List Nat :=
  (if 0 < dataSize then [0] else []) ++ (if 0 < resourceSize then [1] else [])

/-- File.get_content for HFS files (src/dumpdisc/apple.py, lines 699-710):
stream 0 returns the catalog read of the data-fork extent records when the
data fork size is positive and the empty byte string otherwise; stream 1
likewise for the resource fork; any other stream raises ValueError.
readContents stands for self._catalog.get_extent_contents. -/
def hfsGetContent (dataSize resourceSize : Nat) (dataExt resourceExt : Bytes)
    (readContents : Bytes → Nat → Res Bytes) (stream : Nat) : Res Bytes :=
  if stream = 0 then
    if 0 < dataSize then readContents dataExt dataSize else .ok []
  else if stream = 1 then
    if 0 < resourceSize then readContents resourceExt resourceSize else .ok []
  else .err .valueErr

/-- A materialised node of the HFS catalog B-tree (src/dumpdisc/apple.py).
Index nodes carry (key, child-node-number) pairs, leaf nodes carry the
next-leaf number and (key, record) pairs; keys are compared by
CatalogSearchKeyByParentIdentifier (lines 461-473) on the parent identifier
only, so a key is modelled as that natural; records are identified by a
natural tag. -/
inductive BNode where
  | header
  | index (childs : List (Nat × Nat))
  | leaf (next : Nat) (records : List (Nat × Nat))
  deriving DecidableEq

/-- The node array and root of a catalog B-tree (src/dumpdisc/apple.py,
BTree.__init__, lines 476-492): self._nodes with None for unused slots, and
the header's root_node index. -/
structure BTreeModel where
  rootNode : Nat
  nodes : List (Option BNode)
  deriving DecidableEq

/-- Access to self._nodes[i].  In Python an out-of-range index raises
IndexError and a None entry makes the subsequent .search call raise
AttributeError; both abort the search uncaught and are modelled as one
error. -/
def lookupNode (t : BTreeModel) (i : Nat) : Res BNode :=
  match t.nodes.getD i none with
  | some n => .ok n
  | none => .err .indexErr

/-- The scan of BTreeIndexNode.search (src/dumpdisc/apple.py, lines 626-631):
starting from the first child's number, replace the result while the search
key is strictly greater than the child key and stop at the first child whose
key is not strictly less. -/
def btIndexScan (k : Nat) : Nat → List (Nat × Nat) → Nat
  | acc, [] => acc
  | acc, c :: rest => if c.1 < k then btIndexScan k c.2 rest else acc

/-- BTreeIndexNode.search (src/dumpdisc/apple.py, lines 622-632): KeyError
when the search key is neither greater than nor equal to the first child key
(that is, strictly smaller); otherwise the scan over the remaining children.
An empty child list would raise IndexError at childs[0]. -/
def btIndexNodeSearch (childs : List (Nat × Nat)) (k : Nat) : Res Nat :=
  match childs with
  | [] => .err .indexErr
  | c0 :: rest => if k < c0.1 then .err .keyErr else .ok (btIndexScan k c0.2 rest)

/-- The collection loop of BTreeLeafNode.search (src/dumpdisc/apple.py,
lines 662-670): skip records with key strictly smaller than the search key,
collect records with equal key, return at the first strictly greater key. -/
def btLeafCollect (k : Nat) : List (Nat × Nat) → List Nat
  | [] => []
  | r :: rest =>
    if r.1 < k then btLeafCollect k rest
    else if k = r.1 then r.2 :: btLeafCollect k rest
    else []

/-- BTreeLeafNode.search (src/dumpdisc/apple.py, lines 658-670): KeyError when
the search key is strictly smaller than the first record key; otherwise the
collection loop over all records.  An empty record list would raise
IndexError at records[0]. -/
def btLeafNodeSearch (records : List (Nat × Nat)) (k : Nat) : Res (List Nat) :=
  match records with
  | [] => .err .indexErr
  | r0 :: _ => if k < r0.1 then .err .keyErr else .ok (btLeafCollect k records)

/-- The descent loop of BTree.search (src/dumpdisc/apple.py, lines 508-513):
while the current node is an index node, search it; a KeyError there is caught
and yields the empty overall result (ok none); any other error propagates;
otherwise descend to the returned child.  The fuel bounds the iteration count
(the Python while-loop does not terminate on a cyclic node graph). -/
def btDescend (t : BTreeModel) (k : Nat) : Nat → Nat → Res (Option Nat)
  | 0, _ => .err .outOfFuel
  | fuel + 1, cur =>
    match lookupNode t cur with
    | .err e => .err e
    | .ok (.index cs) =>
      match btIndexNodeSearch cs k with
      | .err .keyErr => .ok none
      | .err e => .err e
      | .ok j => btDescend t k fuel j
    | .ok _ => .ok (some cur)

/-- The leaf loop of BTree.search (src/dumpdisc/apple.py, lines 515-524):
search the current leaf (a KeyError is caught and returns the accumulated
result), extend the result, return it when next_node is 0, otherwise follow
next_node.  A non-leaf node reached through next_node misbehaves in Python
(an index node's search returns an int that result.extend rejects with
TypeError; the header node has no search and raises AttributeError). -/
def btLeafLoop (t : BTreeModel) (k : Nat) : Nat → Nat → List Nat → Res (List Nat)
  | 0, _, _ => .err .outOfFuel
  | fuel + 1, cur, acc =>
    match lookupNode t cur with
    | .err e => .err e
    | .ok (.leaf next records) =>
      match btLeafNodeSearch records k with
      | .err .keyErr => .ok acc
      | .err e => .err e
      | .ok rs => if next = 0 then .ok (acc ++ rs) else btLeafLoop t k fuel next (acc ++ rs)
    | .ok (.index _) => .err .typeErr
    | .ok .header => .err .attrErr

/-- BTree.search (src/dumpdisc/apple.py, lines 507-524): descend from the
header's root node, return the empty list when an index lookup raised
KeyError, otherwise run the leaf loop from the reached node with an empty
accumulator. -/
def btSearch (t : BTreeModel) (k : Nat) (fuel : Nat) : Res (List Nat) :=
  match btDescend t k fuel t.rootNode with
  | .err e => .err e
  | .ok none => .ok []
  | .ok (some leafIdx) => btLeafLoop t k fuel leafIdx []

/-- Modelled from the claim's words (C7): at an index node, descend to the
last child whose key is less than or equal to the search key, with the empty
result when the search key is strictly less than the first child's key. -/
def btClaimIndexSelect (childs : List (Nat × Nat)) (k : Nat) : Res Nat :=
  match childs with
  | [] => .err .indexErr
  | c0 :: rest =>
    if k < c0.1 then .err .keyErr
    else .ok ((((c0 :: rest).filter (fun c => c.1 ≤ k)).map Prod.snd).getLastD c0.2)

/-- Modelled from the claim's words (C7): the descent using
btClaimIndexSelect at every index node. -/
def btClaimDescend (t : BTreeModel) (k : Nat) : Nat → Nat → Res (Option Nat)
  | 0, _ => .err .outOfFuel
  | fuel + 1, cur =>
    match lookupNode t cur with
    | .err e => .err e
    | .ok (.index cs) =>
      match btClaimIndexSelect cs k with
      | .err .keyErr => .ok none
      | .err e => .err e
      | .ok j => btClaimDescend t k fuel j
    | .ok _ => .ok (some cur)

/-- Modelled from the claim's words (C7): the search procedure the claim
describes, identical to BTree.search except for the index-node descent rule. -/
def btClaimSearch (t : BTreeModel) (k : Nat) (fuel : Nat) : Res (List Nat) :=
  match btClaimDescend t k fuel t.rootNode with
  | .err e => .err e
  | .ok none => .ok []
  | .ok (some leafIdx) => btLeafLoop t k fuel leafIdx []

/-- The chain of leaves reachable from a node by next_node links, as record
lists; none when the fuel runs out or a non-leaf or missing node is hit. -/
def btLeafChain (t : BTreeModel) : Nat → Nat → Option (List (List (Nat × Nat)))
  | 0, _ => none
  | fuel + 1, i =>
    match lookupNode t i with
    | .ok (.leaf next records) =>
      if next = 0 then some [records] else (btLeafChain t fuel next).map (records :: ·)
    | _ => none

/-- The catalog B-tree used to exhibit the C7 descent discrepancy: the root
index node's children are keyed 5, 5, 7 and the three leaves hold the key-5
run 10, 11, 12 split across the first two leaves. -/
def c7Tree : BTreeModel :=
  { rootNode := 4,
    nodes := [some .header,
              some (.leaf 2 [(5, 10), (5, 11)]),
              some (.leaf 3 [(5, 12), (6, 13)]),
              some (.leaf 0 [(7, 14)]),
              some (.index [(5, 1), (5, 2), (7, 3)])] }

/-- A well-formed catalog B-tree used to instantiate the amended C7 theorem. -/
def c7GoodTree : BTreeModel :=
  { rootNode := 3,
    nodes := [some .header,
              some (.leaf 2 [(4, 20), (5, 21)]),
              some (.leaf 0 [(5, 22), (6, 23)]),
              some (.index [(4, 1), (6, 2)])] }

/-- A catalog read that always fails, used to observe that
File.get_content does not touch the image for an empty fork. -/
def c10FailRead : Bytes → Nat → Res Bytes := fun _ _ => .err .ioShort

/-- A raw CD sector with valid sync and mode byte 1; the payload bytes are
zero (the C5 failure does not depend on them, since the TypeError is raised
before any checksum comparison). -/
def c5Mode1Sector : Bytes := syncBytes ++ ([0, 0, 0, 1] ++ List.replicate 2336 0)

/-- A raw CD sector with valid sync and mode byte 0. -/
def c5Mode0Sector : Bytes := syncBytes ++ ([0, 0, 0, 0] ++ List.replicate 2336 0)

/-- The subheader of the C6 witness sector: submode byte 0x20 (Form 2) at
offsets 2 and 6, as the duplicated subheader stores it. -/
def c6Sub : Bytes := [0, 0, 32, 0, 0, 0, 32, 0]

/-- The 2324 user-data bytes of the C6 witness sector. -/
def c6Data : Bytes := List.replicate 2324 0

/-- The stored EDC of the C6 witness sector: the little-endian encoding of
the EDC over subheader || data. -/
def c6EdcB : Bytes := le4 (edcCompute (c6Sub ++ c6Data))

/-- The C6 witness file: one raw Mode 2 Form 2 sector with valid sync,
duplicated subheader, Form 2 submode bit and valid EDC. -/
def c6File : Bytes := (syncBytes ++ ([0, 0, 0] ++ [2])) ++ (c6Sub ++ (c6Data ++ c6EdcB))

/-- A 2048-byte volume descriptor sector with type byte 255 (Terminator),
identifier bytes that do not spell CD001 and version byte 7. -/
def c4BadTerm : Bytes := 255 :: 88 :: 88 :: 88 :: 88 :: 88 :: 7 :: List.replicate 2041 0

/-- A valid 2048-byte Boot Record descriptor sector: type 0, identifier
CD001, version 1, zero payload. -/
def c4BootSector : Bytes := 0 :: 67 :: 68 :: 48 :: 48 :: 49 :: 1 :: List.replicate 2041 0

/-- A 2048-byte volume descriptor sector whose type byte 9 matches no
registered descriptor kind. -/
def c4UnknownType : Bytes := 9 :: 67 :: 68 :: 48 :: 48 :: 49 :: 1 :: List.replicate 2041 0

/-- An on-disc ISO 9660 directory record of total length 34: the 33-byte
fixed header with a recording date of 1990-01-01 and matching little- and
big-endian copies, followed by a one-byte identifier. -/
def mkDirRec (extent dlen flags : Nat) (ident : Bytes) : Bytes :=
  [34, 0] ++ le4 extent ++ be4 extent ++ le4 dlen ++ be4 dlen ++
    [90, 1, 1, 0, 0, 0, 0] ++ [flags, 0, 0] ++ le2 1 ++ be2 1 ++ [1] ++ ident

/-- First logical block (128 bytes) of the C3 directory extent: the . and ..
records, one child record A, then zero padding to the block boundary. -/
def c3Block0 : Bytes :=
  mkDirRec 100 256 2 [0] ++ mkDirRec 100 256 2 [1] ++ mkDirRec 210 5 0 [65] ++
    List.replicate 26 0

/-- Second logical block of the C3 directory extent: a further child record B
recorded after the zero padding that ends the first block. -/
def c3Block1 : Bytes := mkDirRec 211 6 0 [66] ++ List.replicate 94 0

/-- The C3 image: the directory extent occupies blocks 100 and 101. -/
def c3Blocks : Nat → Bytes :=
  fun a => if a = 100 then c3Block0 else if a = 101 then c3Block1 else List.replicate 128 0

/-- The C3 directory record: a directory at extent 100 with 256 bytes of
directory data (two 128-byte logical blocks). -/
def c3Root : DirRecord :=
  { length := 34, extAttr := 0, extent := 100, dataLength := 256, year := 90, month := 1,
    day := 1, hour := 0, minute := 0, second := 0, tz := 0, fileUnitSize := 0,
    interleaveGap := 0, volumeSeq := 1, identifier := [0], isHidden := false,
    isDirectory := true, isAssociated := false, hasFormatInfo := false,
    hasPermissions := false, isFinal := false }

/-- The child record A as parsed from the first block of the C3 extent. -/
def c3RecA : DirRecord :=
  { length := 34, extAttr := 0, extent := 210, dataLength := 5, year := 90, month := 1,
    day := 1, hour := 0, minute := 0, second := 0, tz := 0, fileUnitSize := 0,
    interleaveGap := 0, volumeSeq := 1, identifier := [65], isHidden := false,
    isDirectory := false, isAssociated := false, hasFormatInfo := false,
    hasPermissions := false, isFinal := false }

/-- The child record B as parsed from the second block of the C3 extent. -/
def c3RecB : DirRecord :=
  { length := 34, extAttr := 0, extent := 211, dataLength := 6, year := 90, month := 1,
    day := 1, hour := 0, minute := 0, second := 0, tz := 0, fileUnitSize := 0,
    interleaveGap := 0, volumeSeq := 1, identifier := [66], isHidden := false,
    isDirectory := false, isAssociated := false, hasFormatInfo := false,
    hasPermissions := false, isFinal := false }

/-- C1: the requested byte interval [2048, 8192) of read_blocks(address 1,
count 3, block size 2048) strictly contains the bad range [4096, 6144), yet
DDRescueImage.read_blocks delegates to the inner image instead of failing;
conversely the interval [0, 4096) of read_blocks(address 0, count 2) does not
intersect the bad range, yet the read fails with BadBlock.  The source's
bad-area test looks only at whether the start or the exclusive end of the
request falls inside an area, so overlap by containment is missed. -/
theorem c1_ddrescue_overlap_check_wrong :
    ∀ innerRead : Option Nat → Nat → Res Bytes,
      intervalsOverlap 2048 8192 4096 6144 ∧
      ddrescueReadBlocks [(4096, 6144)] 2048 0 (some 1) 3 innerRead = innerRead (some 1) 3 ∧
      ¬ intervalsOverlap 0 4096 4096 6144 ∧
      ddrescueReadBlocks [(4096, 6144)] 2048 0 (some 0) 2 innerRead = .err .badBlock := by
  intro innerRead
  refine ⟨by simp [intervalsOverlap], ?_, by simp [intervalsOverlap], ?_⟩
  · simp only [ddrescueReadBlocks]
    norm_num [ddrescueHit]
  · simp only [ddrescueReadBlocks]
    norm_num [ddrescueHit]

/-- C2: on the extent group [(10, 4), (20, 4)] (size 8), reading 4 blocks at
position 2 should return the group blocks 12, 13, 20, 21 but
ExtentGroup.read_blocks reads allocation blocks 12, 13, 18, 19 — after the
partial read of the first extent the address goes negative and the read
continues two blocks before the second extent; and reading 7 blocks at
position 2 runs past the group's end (2 + 7 > 8) yet succeeds instead of
raising. -/
theorem c2_extent_group_spanning_read_wrong :
    extentGroupReadBlocks [(10, 4), (20, 4)] blockAddrRead 2 4 = .ok [12, 13, 18, 19] ∧
    ((extentGroupBlocks [(10, 4), (20, 4)]).drop 2).take 4 = [12, 13, 20, 21] ∧
    extentGroupSize [(10, 4), (20, 4)] = 8 ∧
    extentGroupReadBlocks [(10, 4), (20, 4)] blockAddrRead 2 7 =
      .ok [12, 13, 18, 19, 20, 21, 22] := by
  decide

/-- C9 counterexample: an HFS file whose data fork and resource fork are both
empty exposes an empty streams sequence, refuting the guarantee that every
file exposes a non-empty sequence of stream identifiers. -/
theorem c9_counterexample_empty_streams : hfsFileStreams 0 0 = [] := rfl

/-- C9 amended: every ISO 9660 file's streams sequence equals [0]; for every
HFS file, stream 0 is present in the streams sequence exactly when the data
fork is non-empty and stream 1 exactly when the resource fork is non-empty
(hence the sequence is empty when both forks are empty, and the
non-emptiness guarantee does not hold for such files). -/
theorem c9_amended_streams :
    isoFileStreams = [0] ∧
    ∀ dataSize resourceSize : Nat,
      (0 ∈ hfsFileStreams dataSize resourceSize ↔ 0 < dataSize) ∧
      (1 ∈ hfsFileStreams dataSize resourceSize ↔ 0 < resourceSize) := by
  refine ⟨rfl, fun d r => ⟨?_, ?_⟩⟩ <;>
    rcases Nat.eq_zero_or_pos d with hd | hd <;>
    rcases Nat.eq_zero_or_pos r with hr | hr <;>
    simp_all [hfsFileStreams, Nat.pos_iff_ne_zero]

/-- C10: for every HFS file record, get_content(0) with an empty data fork and
get_content(1) with an empty resource fork return the empty byte string for
every catalog reader, including one that always fails, so the image is never
read and the call never fails; any stream other than 0 and 1 raises
ValueError; and the stream identifiers so served are absent from the file's
streams sequence. -/
theorem c10_hfs_get_content_empty_forks :
    ∀ (dataSize resourceSize : Nat) (dataExt resourceExt : Bytes)
      (readContents : Bytes → Nat → Res Bytes) (stream : Nat),
      (dataSize = 0 →
        hfsGetContent dataSize resourceSize dataExt resourceExt readContents 0 = .ok []) ∧
      (resourceSize = 0 →
        hfsGetContent dataSize resourceSize dataExt resourceExt readContents 1 = .ok []) ∧
      (stream ≠ 0 → stream ≠ 1 →
        hfsGetContent dataSize resourceSize dataExt resourceExt readContents stream =
          .err .valueErr) ∧
      (dataSize = 0 → 0 ∉ hfsFileStreams dataSize resourceSize) ∧
      (resourceSize = 0 → 1 ∉ hfsFileStreams dataSize resourceSize) := by
  intro d r de re f s
  refine ⟨fun h => ?_, fun h => ?_, fun h0 h1 => ?_, fun h => ?_, fun h => ?_⟩
  · simp [hfsGetContent, h]
  · simp [hfsGetContent, h]
  · simp [hfsGetContent, h0, h1]
  · subst h
    rcases Nat.eq_zero_or_pos r with hr | hr <;> simp [hfsFileStreams, hr]
  · subst h
    rcases Nat.eq_zero_or_pos d with hd | hd <;> simp [hfsFileStreams, hd]

/-- C10 witness: the empty-fork reads return the empty byte string against the
always-failing catalog reader, stream 7 raises, and streams 0 and 1 are absent
from the respective streams sequences. -/
theorem c10_witness :
    hfsGetContent 0 5 [] [] c10FailRead 0 = .ok [] ∧
    hfsGetContent 5 0 [] [] c10FailRead 1 = .ok [] ∧
    hfsGetContent 0 0 [] [] c10FailRead 7 = .err .valueErr ∧
    0 ∉ hfsFileStreams 0 5 ∧ 1 ∉ hfsFileStreams 5 0 :=
  ⟨(c10_hfs_get_content_empty_forks 0 5 [] [] c10FailRead 7).1 rfl,
   (c10_hfs_get_content_empty_forks 5 0 [] [] c10FailRead 7).2.1 rfl,
   (c10_hfs_get_content_empty_forks 0 0 [] [] c10FailRead 7).2.2.1 (by decide) (by decide),
   (c10_hfs_get_content_empty_forks 0 5 [] [] c10FailRead 7).2.2.2.1 rfl,
   (c10_hfs_get_content_empty_forks 5 0 [] [] c10FailRead 7).2.2.2.2 rfl⟩

/-- C7 counterexample: on a tree whose root index node has children keyed
5, 5, 7, the descent rule the claim states (last child with key less than or
equal to the search key) lands in the middle of the key-5 run and collects
[12] only, while BTree.search descends by strict comparison, lands on the
first leaf and returns the whole ordered run [10, 11, 12] of key-5 records on
the leaf chain; the claim's description of the descent, and its conclusion
that the described procedure returns exactly the run, are both false. -/
theorem c7_counterexample_descent :
    btClaimSearch c7Tree 5 9 = .ok [12] ∧
    btSearch c7Tree 5 9 = .ok [10, 11, 12] ∧
    (btLeafChain c7Tree 9 1).map
        (fun ls => (ls.flatten.filter (fun r => r.1 = 5)).map Prod.snd) =
      some [10, 11, 12] := by
  decide

/-- The subtract-once wrap of the source equals the modulo wrap of the spec on
one inner-loop step, whenever the incoming index is below the region size and
the increment does not exceed it. -/
theorem pqStep_wrap_eq (data : Bytes) (size minorInc : Nat) (st : Nat × Nat × Nat)
    (hi : st.1 < size) (hinc : minorInc ≤ size) :
    pqStep data size minorInc st = pqStepSpec data size minorInc st := by
  simp only [pqStep, pqStepSpec]
  congr 1
  rcases le_or_lt size (st.1 + minorInc) with hle | hlt
  · rw [if_pos hle, Nat.mod_eq_sub_mod hle, Nat.mod_eq_of_lt (by omega)]
  · rw [if_neg (by omega), Nat.mod_eq_of_lt hlt]

/-- The spec's inner-loop step keeps the index below the region size. -/
theorem pqStepSpec_lt (data : Bytes) (size minorInc : Nat) (st : Nat × Nat × Nat)
    (hs : 0 < size) : (pqStepSpec data size minorInc st).1 < size := by
  simp only [pqStepSpec]
  exact Nat.mod_lt _ hs

/-- The source's inner loop equals the spec's inner loop from any in-range
index. -/
theorem pqLoop_eq (data : Bytes) (size minorInc : Nat) (hinc : minorInc ≤ size) :
    ∀ (m : Nat) (st : Nat × Nat × Nat), st.1 < size →
      pqLoop data size minorInc m st = pqLoopSpec data size minorInc m st := by
  intro m
  induction m with
  | zero => intro st _; rfl
  | succ n ih =>
    intro st h
    have hs : 0 < size := by omega
    rw [pqLoop, pqLoopSpec, pqStep_wrap_eq data size minorInc st h hinc]
    exact ih (pqStepSpec data size minorInc st) (pqStepSpec_lt data size minorInc st hs)

/-- The source's parity column equals the spec's parity column whenever the
starting index is in range and the increment does not exceed the size. -/
theorem pqMajor_eq (data : Bytes) (majorMult minorCount size minorInc major : Nat)
    (h0 : (major >>> 1) * majorMult + (major &&& 1) < size) (hinc : minorInc ≤ size) :
    pqMajor data majorMult minorCount size minorInc major =
      pqMajorSpec data majorMult minorCount size minorInc major := by
  simp only [pqMajor, pqMajorSpec,
    pqLoop_eq data size minorInc hinc minorCount ((major >>> 1) * majorMult + (major &&& 1), 0, 0) h0]

/-- The P parity of the source equals the P parity of the spec. -/
theorem computePQ_eq_p (data : Bytes) :
    computePQ data 86 24 2 86 = computePQSpec data 86 24 2 86 := by
  simp only [computePQ, computePQSpec]
  have h : ∀ major ∈ List.range 86,
      pqMajor data 2 24 (86 * 24) 86 major = pqMajorSpec data 2 24 (86 * 24) 86 major := by
    intro m hm
    rw [List.mem_range] at hm
    apply pqMajor_eq
    · rw [Nat.shiftRight_one, Nat.and_one_is_mod]
      omega
    · omega
  have h1 : (List.range 86).map (fun major => (pqMajor data 2 24 (86 * 24) 86 major).1)
      = (List.range 86).map (fun major => (pqMajorSpec data 2 24 (86 * 24) 86 major).1) :=
    List.map_congr_left fun m hm => by rw [h m hm]
  have h2 : (List.range 86).map (fun major => (pqMajor data 2 24 (86 * 24) 86 major).2)
      = (List.range 86).map (fun major => (pqMajorSpec data 2 24 (86 * 24) 86 major).2) :=
    List.map_congr_left fun m hm => by rw [h m hm]
  rw [h1, h2]

/-- The Q parity of the source equals the Q parity of the spec. -/
theorem computePQ_eq_q (data : Bytes) :
    computePQ data 52 43 86 88 = computePQSpec data 52 43 86 88 := by
  simp only [computePQ, computePQSpec]
  have h : ∀ major ∈ List.range 52,
      pqMajor data 86 43 (52 * 43) 88 major = pqMajorSpec data 86 43 (52 * 43) 88 major := by
    intro m hm
    rw [List.mem_range] at hm
    apply pqMajor_eq
    · rw [Nat.shiftRight_one, Nat.and_one_is_mod]
      omega
    · omega
  have h1 : (List.range 52).map (fun major => (pqMajor data 86 43 (52 * 43) 88 major).1)
      = (List.range 52).map (fun major => (pqMajorSpec data 86 43 (52 * 43) 88 major).1) :=
    List.map_congr_left fun m hm => by rw [h m hm]
  have h2 : (List.range 52).map (fun major => (pqMajor data 86 43 (52 * 43) 88 major).2)
      = (List.range 52).map (fun major => (pqMajorSpec data 86 43 (52 * 43) 88 major).2) :=
    List.map_congr_left fun m hm => by rw [h m hm]
  rw [h1, h2]

/-- C8: ECC parity generation follows the specified algorithm.  For every
input, ECC.compute as implemented (advancing the index by minor_inc and
subtracting the region size once when it is reached) equals the spec's
algorithm (index wrapped modulo major_count * minor_count), emitting ecc_a
and ecc_a XOR ecc_b into the two parity halves; the full sector parity is the
P parity with parameters (86, 24, 2, 86) over the input followed by the Q
parity with parameters (52, 43, 86, 88) over the input concatenated with the
P parity. -/
theorem c8_ecc_parity_follows_spec : ∀ data : Bytes, eccCompute data = eccComputeSpec data := by
  intro data
  simp only [eccCompute, eccComputeSpec]
  rw [computePQ_eq_p data, computePQ_eq_q (data ++ computePQSpec data 86 24 2 86)]

/-- The index-node scan picks the last child of the strictly-less prefix; on
children with non-decreasing keys that is the last child whose key is strictly
less than the search key, with the accumulator as default. -/
theorem btIndexScan_filter (k : Nat) :
    ∀ (cs : List (Nat × Nat)) (d : Nat),
      List.Pairwise (fun a b : Nat × Nat => a.1 ≤ b.1) cs →
      btIndexScan k d cs = ((cs.filter (fun c => c.1 < k)).map Prod.snd).getLastD d := by
  intro cs
  induction cs with
  | nil => intro d _; rfl
  | cons c rest ih =>
    intro d h
    rcases List.pairwise_cons.mp h with ⟨hhead, htail⟩
    by_cases hc : c.1 < k
    · simp only [btIndexScan, if_pos hc, ih c.2 htail]
      rw [List.filter_cons_of_pos (by simpa using hc), List.map_cons, List.getLastD_cons]
    · simp only [btIndexScan, if_neg hc]
      have hnil : rest.filter (fun c => c.1 < k) = [] := by
        rw [List.filter_eq_nil_iff]
        intro x hx
        have hx1 := hhead x hx
        simp only [decide_eq_true_eq]
        omega
      rw [List.filter_cons_of_neg (by simpa using hc), hnil]
      rfl

/-- The leaf collection loop equals the filter of the records with the search
key, on records with non-decreasing keys. -/
theorem btLeafCollect_filter (k : Nat) :
    ∀ rs : List (Nat × Nat),
      List.Pairwise (fun a b : Nat × Nat => a.1 ≤ b.1) rs →
      btLeafCollect k rs = (rs.filter (fun r => r.1 = k)).map Prod.snd := by
  intro rs
  induction rs with
  | nil => intro _; rfl
  | cons r rest ih =>
    intro h
    rcases List.pairwise_cons.mp h with ⟨hhead, htail⟩
    by_cases h1 : r.1 < k
    · simp only [btLeafCollect, if_pos h1, ih htail]
      have hr : ¬ (r.1 = k) := by omega
      simp [List.filter_cons, hr]
    · by_cases h2 : k = r.1
      · simp only [btLeafCollect, if_neg h1, if_pos h2, ih htail]
        have hr : r.1 = k := h2.symm
        simp [List.filter_cons, hr]
      · simp only [btLeafCollect, if_neg h1, if_neg h2]
        have hr : ¬ (r.1 = k) := fun hx => h2 hx.symm
        have hnil : rest.filter (fun r => r.1 = k) = [] := by
          rw [List.filter_eq_nil_iff]
          intro x hx
          have hx1 := hhead x hx
          simp only [decide_eq_true_eq]
          omega
        simp [List.filter_cons, hr, hnil]

/-- The leaf loop of BTree.search collects exactly the matching records of the
leaf chain, appended to the accumulator, whenever the chain from the current
node is a proper leaf chain with non-empty leaves and non-decreasing keys. -/
theorem btLeafLoop_chain (t : BTreeModel) (k : Nat) :
    ∀ (fuel leafIdx : Nat) (ls : List (List (Nat × Nat))) (acc : List Nat),
      btLeafChain t fuel leafIdx = some ls →
      (∀ l ∈ ls, l ≠ []) →
      List.Pairwise (fun a b : Nat × Nat => a.1 ≤ b.1) ls.flatten →
      btLeafLoop t k fuel leafIdx acc =
        .ok (acc ++ (ls.flatten.filter (fun r => r.1 = k)).map Prod.snd) := by
  intro fuel
  induction fuel with
  | zero =>
    intro leafIdx ls acc hchain
    simp [btLeafChain] at hchain
  | succ n ih =>
    intro leafIdx ls acc hchain hne hsorted
    simp only [btLeafChain] at hchain
    simp only [btLeafLoop]
    cases hlk : lookupNode t leafIdx with
    | err e => simp [hlk] at hchain
    | ok node =>
      cases node with
      | header => simp [hlk] at hchain
      | index cs => simp [hlk] at hchain
      | leaf nxt recs =>
        simp only [hlk] at hchain ⊢
        by_cases hnxt : nxt = 0
        · rw [if_pos hnxt] at hchain
          have hls : [recs] = ls := by
            injection hchain
          subst hls
          have hrecs : recs ≠ [] := hne recs (by simp)
          obtain ⟨r0, rest0, rfl⟩ := List.exists_cons_of_ne_nil hrecs
          have hsorted' : List.Pairwise (fun a b : Nat × Nat => a.1 ≤ b.1) (r0 :: rest0) := by
            simpa using hsorted
          simp only [btLeafNodeSearch]
          by_cases hk : k < r0.1
          · rw [if_pos hk]
            have hfil : (r0 :: rest0).filter (fun r => r.1 = k) = [] := by
              rw [List.filter_eq_nil_iff]
              intro x hx
              rcases List.mem_cons.mp hx with rfl | hx'
              · simp only [decide_eq_true_eq]; omega
              · have := (List.pairwise_cons.mp hsorted').1 x hx'
                simp only [decide_eq_true_eq]
                omega
            simp [hfil]
          · rw [if_neg hk]
            rw [btLeafCollect_filter k (r0 :: rest0) hsorted']
            simp [hnxt]
        · rw [if_neg hnxt] at hchain
          rcases Option.map_eq_some'.mp hchain with ⟨ls', hchain', hlseq⟩
          subst hlseq
          have hrecs : recs ≠ [] := hne recs (by simp)
          obtain ⟨r0, rest0, rfl⟩ := List.exists_cons_of_ne_nil hrecs
          have hflat : ((r0 :: rest0) :: ls').flatten = (r0 :: rest0) ++ ls'.flatten := by
            simp [List.flatten_cons]
          rw [hflat] at hsorted ⊢
          rcases List.pairwise_append.mp hsorted with ⟨hsl, hsr, hcross⟩
          simp only [btLeafNodeSearch]
          by_cases hk : k < r0.1
          · rw [if_pos hk]
            have hfil1 : (r0 :: rest0).filter (fun r => r.1 = k) = [] := by
              rw [List.filter_eq_nil_iff]
              intro x hx
              rcases List.mem_cons.mp hx with rfl | hx'
              · simp only [decide_eq_true_eq]; omega
              · have := (List.pairwise_cons.mp hsl).1 x hx'
                simp only [decide_eq_true_eq]
                omega
            have hfil2 : ls'.flatten.filter (fun r => r.1 = k) = [] := by
              rw [List.filter_eq_nil_iff]
              intro x hx
              have := hcross r0 (by simp) x hx
              simp only [decide_eq_true_eq]
              omega
            have hfil : ((r0 :: rest0) ++ ls'.flatten).filter (fun r => r.1 = k) = [] := by
              rw [List.filter_append, hfil1, hfil2]
              rfl
            show Res.ok acc = _
            rw [hfil]
            simp
          · have hne' : ∀ l ∈ ls', l ≠ [] := fun l hl => hne l (List.mem_cons_of_mem _ hl)
            have hsearch : btLeafNodeSearch (r0 :: rest0) k =
                .ok (btLeafCollect k (r0 :: rest0)) := by
              simp [btLeafNodeSearch, if_neg hk]
            have hrec := ih nxt ls'
              (acc ++ ((r0 :: rest0).filter (fun r => r.1 = k)).map Prod.snd) hchain' hne' hsr
            simp only [btLeafCollect_filter k (r0 :: rest0) hsl, List.filter_append,
              List.map_append]
            rw [if_neg hk]
            simp only [if_neg hnxt]
            exact hrec.trans (by rw [List.append_assoc])

/-- C7 amended: for every catalog B-tree search, (first part) at an index node
whose child keys are non-decreasing, BTree.search raises KeyError (yielding
the empty overall result) when the search key is strictly less than the first
child's key, and otherwise descends to the last child whose key is strictly
less than the search key, staying at the first child when no child key is
strictly less; (second part) when the descent reaches a leaf whose chain of
next_node links consists of non-empty leaves with non-decreasing keys, the
search returns exactly the ordered run of records on that chain whose key is
the searched parent identifier. -/
theorem c7_amended_search :
    (∀ (c0 : Nat × Nat) (cs : List (Nat × Nat)) (k : Nat),
        List.Pairwise (fun a b : Nat × Nat => a.1 ≤ b.1) (c0 :: cs) →
        btIndexNodeSearch (c0 :: cs) k =
          if k < c0.1 then .err .keyErr
          else .ok ((((c0 :: cs).filter (fun c => c.1 < k)).map Prod.snd).getLastD c0.2)) ∧
    (∀ (t : BTreeModel) (k fuel leafIdx : Nat) (ls : List (List (Nat × Nat))),
        btDescend t k fuel t.rootNode = .ok (some leafIdx) →
        btLeafChain t fuel leafIdx = some ls →
        (∀ l ∈ ls, l ≠ []) →
        List.Pairwise (fun a b : Nat × Nat => a.1 ≤ b.1) ls.flatten →
        btSearch t k fuel = .ok ((ls.flatten.filter (fun r => r.1 = k)).map Prod.snd)) := by
  constructor
  · intro c0 cs k hsorted
    by_cases h0 : k < c0.1
    · simp [btIndexNodeSearch, if_pos h0]
    · simp only [btIndexNodeSearch, if_neg h0]
      rw [btIndexScan_filter k cs c0.2 (List.pairwise_cons.mp hsorted).2]
      by_cases hc : c0.1 < k
      · rw [List.filter_cons_of_pos (by simpa using hc), List.map_cons, List.getLastD_cons]
      · rw [List.filter_cons_of_neg (by simpa using hc)]
  · intro t k fuel leafIdx ls hdesc hchain hne hsorted
    simp only [btSearch, hdesc]
    rw [btLeafLoop_chain t k fuel leafIdx ls [] hchain hne hsorted]
    simp

/-- C7 witness: the amended theorem instantiated.  On the one-child index list
keyed 3 the search with key 5 selects the strictly-less-prefix child, and on
the concrete well-formed tree the search with key 5 returns the run [21, 22]
of key-5 records on the leaf chain from the reached leaf. -/
theorem c7_amended_witness :
    (btIndexNodeSearch [(3, 7)] 5 =
      if 5 < 3 then .err .keyErr
      else .ok (((([((3 : Nat), (7 : Nat))]).filter (fun c => c.1 < 5)).map Prod.snd).getLastD 7)) ∧
    btSearch c7GoodTree 5 6 =
      .ok ((([[(4, 20), (5, 21)], [(5, 22), (6, 23)]] :
          List (List (Nat × Nat))).flatten.filter (fun r => r.1 = 5)).map Prod.snd) :=
  ⟨c7_amended_search.1 (3, 7) [] 5 (by simp),
   c7_amended_search.2 c7GoodTree 5 6 1 [[(4, 20), (5, 21)], [(5, 22), (6, 23)]]
     (by decide) (by decide) (by decide) (by decide)⟩

/-- Reading the raw sector at address 0 of a file that is exactly one sector
long returns the whole file and advances the cursor to 1. -/
theorem readRawSector_whole (f : Bytes) (cur : Nat) (hf : f.length = 2352) :
    readRawSector f cur (some 0) = .ok (f, 1) := by
  simp only [readRawSector, Option.getD_some, Nat.zero_mul, List.drop_zero]
  rw [List.take_of_length_le (by omega)]
  simp [hf]

/-- Round-trip of the little-endian 32-bit encoding on values below 2^32. -/
theorem de4_le4 (n : Nat) (h : n < 4294967296) : de4 (le4 n) = n := by
  show n % 256 + 256 * (n / 256 % 256) + 65536 * (n / 65536 % 256) +
      16777216 * (n / 16777216 % 256) = n
  omega

/-- One round of the EDC table construction stays below 2^32. -/
theorem edcRound_lt (x : Nat) (h : x < 4294967296) :
    (x >>> 1) ^^^ (if x &&& 1 = 1 then 0xD8018001 else 0) < 4294967296 := by
  have h32 : (4294967296 : Nat) = 2 ^ 32 := by norm_num
  have h1 : x >>> 1 < 4294967296 := by
    have := Nat.shiftRight_eq_div_pow x 1
    have := Nat.div_le_self x (2 ^ 1)
    omega
  have h2 : (if x &&& 1 = 1 then 0xD8018001 else 0) < 4294967296 := by
    split <;> norm_num
  rw [h32] at h1 h2 ⊢
  exact Nat.xor_lt_two_pow h1 h2

/-- Every EDC table entry generated from an in-range index is below 2^32. -/
theorem edcTableEntry_lt (i : Nat) (h : i < 4294967296) : edcTableEntry i < 4294967296 := by
  have hr : List.range 8 = [0, 1, 2, 3, 4, 5, 6, 7] := rfl
  simp only [edcTableEntry, hr, List.foldl_cons, List.foldl_nil]
  exact edcRound_lt _ (edcRound_lt _ (edcRound_lt _ (edcRound_lt _ (edcRound_lt _
    (edcRound_lt _ (edcRound_lt _ (edcRound_lt _ h)))))))

/-- The EDC accumulation stays below 2^32. -/
theorem edcFold_lt (l : Bytes) : ∀ st : Nat, st < 4294967296 → l.foldl edcStep st < 4294967296 := by
  induction l with
  | nil => intro st h; simpa using h
  | cons b rest ih =>
    intro st h
    rw [List.foldl_cons]
    apply ih
    have h32 : (4294967296 : Nat) = 2 ^ 32 := by norm_num
    have h1 : st >>> 8 < 4294967296 := by
      have := Nat.shiftRight_eq_div_pow st 8
      have := Nat.div_le_self st (2 ^ 8)
      omega
    have h2 : edcTableEntry ((st ^^^ b) &&& 0xff) < 4294967296 := by
      apply edcTableEntry_lt
      have : (st ^^^ b) &&& 0xff ≤ 0xff := Nat.and_le_right
      omega
    rw [edcStep, h32] at *
    exact Nat.xor_lt_two_pow h1 h2

/-- The EDC of any byte string is below 2^32. -/
theorem edcCompute_lt (data : Bytes) : edcCompute data < 4294967296 :=
  edcFold_lt data 0 (by norm_num)

/-- C5: evidence for the mode 1 defect of RawCDImage._read_sector.  A sector
with valid sync and mode byte 1 makes the source raise a TypeError — the EDC
is computed over sync + offset + mode + data where mode is the int unpacked
by struct, and Python cannot concatenate bytes with an int — before any
checksum is compared, so no well-formed Mode 1 sector can ever be decoded;
while a sector with mode byte 0 returns 2048 zero bytes as the claim states. -/
theorem c5_mode1_raises_type_error :
    readSector true c5Mode1Sector 0 (some 0) = .err .typeConcat ∧
    readSector true c5Mode0Sector 0 (some 0) = .ok (List.replicate 2048 0, 1) := by
  constructor
  · have hf : c5Mode1Sector.length = 2352 := by
      show (syncBytes ++ ([0, 0, 0, 1] ++ List.replicate 2336 0)).length = 2352
      simp only [List.length_append, List.length_replicate, syncBytes, List.length_cons,
        List.length_nil]
    have hsync : c5Mode1Sector.take 12 = syncBytes := rfl
    have hmode : c5Mode1Sector.getD 15 0 = 1 := rfl
    simp only [readSector, readRawSector_whole c5Mode1Sector 0 hf, hsync, hmode]
    norm_num
  · have hf : c5Mode0Sector.length = 2352 := by
      show (syncBytes ++ ([0, 0, 0, 0] ++ List.replicate 2336 0)).length = 2352
      simp only [List.length_append, List.length_replicate, syncBytes, List.length_cons,
        List.length_nil]
    have hsync : c5Mode0Sector.take 12 = syncBytes := rfl
    have hmode : c5Mode0Sector.getD 15 0 = 0 := rfl
    simp only [readSector, readRawSector_whole c5Mode0Sector 0 hf, hsync, hmode]
    norm_num

/-- C6: for every RAW CD Mode 2 Form 2 sector — valid sync, duplicated
subheader with submode bit 0x20 set, valid EDC over subheader || data — the
strict path read_blocks fails (the strict_size check rejects the 2324-byte
payload), while the non-strict path read_blocks_data accepts the sector and
returns its 2324 data bytes. -/
theorem c6_form2_strict_rejects_data_accepts
    (off sub d edcB f : Bytes)
    (hf : f = (syncBytes ++ (off ++ [2])) ++ (sub ++ (d ++ edcB)))
    (hoff : off.length = 3) (hsub : sub.length = 8) (hd : d.length = 2324)
    (hedcB : edcB.length = 4)
    (hdup : sub.getD 2 0 = sub.getD 6 0)
    (hform2 : sub.getD 2 0 &&& 0x20 ≠ 0)
    (hedc : de4 edcB = edcCompute (sub ++ d)) :
    rawReadBlocks f 0 (some 0) 1 = .err (.strictSize 0) ∧
    rawReadBlocksData f 0 (some 0) 1 = .ok (d, 1) := by
  have hlen16 : (syncBytes ++ (off ++ [2])).length = 16 := by simp [syncBytes, hoff]
  have hflen : f.length = 2352 := by
    simp only [hf, List.length_append, hoff, hsub, hd, hedcB, syncBytes, List.length_cons,
      List.length_nil]
  have hsync : f.take 12 = syncBytes := by
    rw [hf, List.append_assoc]
    exact List.take_left' rfl
  have hmode : f.getD 15 0 = 2 := by
    have h1 : (15 : Nat) < (syncBytes ++ (off ++ [2])).length := by
      simp [syncBytes, hoff]
    rw [hf, List.getD_append _ _ _ _ h1]
    have h2 : syncBytes.length ≤ 15 := by simp [syncBytes]
    rw [List.getD_append_right _ _ _ _ h2]
    have h3 : off.length ≤ 15 - syncBytes.length := by simp [syncBytes, hoff]
    rw [List.getD_append_right _ _ _ _ h3]
    have h4 : 15 - syncBytes.length - off.length = 0 := by simp [syncBytes, hoff]
    rw [h4]
    rfl
  have hpayload : f.drop 16 = sub ++ (d ++ edcB) := by
    rw [hf]
    exact List.drop_left' hlen16
  have hsubeq : (f.drop 16).take 8 = sub := by rw [hpayload]; exact List.take_left' hsub
  have hrest : (f.drop 16).drop 8 = d ++ edcB := by rw [hpayload]; exact List.drop_left' hsub
  have hdslice : ((f.drop 16).drop 8).take 2324 = d := by rw [hrest]; exact List.take_left' hd
  have hedcslice : (((f.drop 16).drop 8).drop 2324).take 4 = edcB := by
    rw [hrest, List.drop_left' hd]
    exact List.take_of_length_le (by omega)
  have hread : ∀ strict : Bool, readSector strict f 0 (some 0) =
      if strict ∧ d.length ≠ 2048 then .err (.strictSize 0) else .ok (d, 1) := by
    intro strict
    simp only [readSector, readRawSector_whole f 0 hflen, hsync, hmode, hsubeq, hrest,
      List.take_left' hd, List.drop_left' hd, List.take_of_length_le (le_of_eq hedcB),
      hedc]
    rw [if_neg (by simp), if_neg (by omega), if_neg (by omega), if_pos trivial,
      if_neg (not_not_intro hdup), if_neg hform2, if_neg (by simp)]
  constructor
  · simp only [rawReadBlocks, hread true]
    rw [if_pos ⟨by trivial, by omega⟩]
  · simp only [rawReadBlocksData, hread false]
    rw [if_neg (by simp)]
    rfl

/-- C6 witness: the concrete Mode 2 Form 2 sector with zero payload and
correctly stored EDC is rejected by the strict path and decoded to its 2324
data bytes by the non-strict path. -/
theorem c6_witness :
    rawReadBlocks c6File 0 (some 0) 1 = .err (.strictSize 0) ∧
    rawReadBlocksData c6File 0 (some 0) 1 = .ok (c6Data, 1) :=
  c6_form2_strict_rejects_data_accepts [0, 0, 0] c6Sub c6Data c6EdcB c6File rfl rfl rfl
    (by simp only [c6Data, List.length_replicate]) rfl (by decide) (by decide)
    (de4_le4 (edcCompute (c6Sub ++ c6Data)) (edcCompute_lt (c6Sub ++ c6Data)))

/-- C4 counterexample: a sector whose type byte is 255 (Volume Descriptor Set
Terminator), whose identifier bytes do not spell CD001 and whose version byte
is 7 is accepted by VolumeDescriptor.from_sector — the Terminator constructor
checks neither field. -/
theorem c4_counterexample_terminator_unchecked :
    vdFromSector c4BadTerm = .ok (.terminator (List.replicate 2041 0)) ∧
    (c4BadTerm.drop 1).take 5 ≠ cd001 ∧ c4BadTerm.getD 6 0 ≠ 1 := by
  refine ⟨?_, by decide, by decide⟩
  have hlen : c4BadTerm.length = 2048 := by
    show (255 :: 88 :: 88 :: 88 :: 88 :: 88 :: 7 :: List.replicate 2041 0).length = 2048
    simp only [List.length_cons, List.length_replicate]
  have h0 : c4BadTerm.getD 0 0 = 255 := rfl
  have hdrop : c4BadTerm.drop 7 = List.replicate 2041 0 := rfl
  simp only [vdFromSector, h0, hdrop]
  rw [if_neg (by omega)]
  norm_num

/-- C4 amended: a volume descriptor decoded from a 2048-byte sector is
rejected when its type byte is 0, 1 or 2 (Boot Record, Primary,
Supplementary) and its 5-byte identifier is not CD001 or its version byte is
not 1; a Boot Record with correct identifier and version is accepted; but
the Volume Partition descriptor (type 3) and the Volume Descriptor Set
Terminator (type 255) are accepted with no identifier or version check at
all; a type byte matching no registered descriptor kind is rejected. -/
theorem c4_amended_descriptor_checks (s : Bytes) (hlen : s.length = 2048) :
    ((s.getD 0 0 = 0 ∨ s.getD 0 0 = 1 ∨ s.getD 0 0 = 2) →
      ((s.drop 1).take 5 ≠ cd001 ∨ s.getD 6 0 ≠ 1) → vdFromSector s = .err .valueErr) ∧
    (s.getD 0 0 = 0 → (s.drop 1).take 5 = cd001 → s.getD 6 0 = 1 →
      vdFromSector s =
        .ok (.bootRecord ((s.drop 7).take 32) (((s.drop 7).drop 32).take 32)
          ((s.drop 7).drop 64))) ∧
    (s.getD 0 0 = 3 → vdFromSector s = .ok (.partitionDesc (s.drop 7))) ∧
    (s.getD 0 0 = 255 → vdFromSector s = .ok (.terminator (s.drop 7))) ∧
    (s.getD 0 0 ≠ 0 → s.getD 0 0 ≠ 1 → s.getD 0 0 ≠ 2 → s.getD 0 0 ≠ 3 →
      s.getD 0 0 ≠ 255 → vdFromSector s = .err .valueErr) := by
  refine ⟨?_, ?_, ?_, ?_, ?_⟩
  · intro h0 hbad
    simp only [vdFromSector]
    rw [if_neg (by omega)]
    rcases h0 with h0 | h0 | h0
    · rw [if_pos h0]
      rcases hbad with hb | hb
      · rw [if_pos hb]
      · by_cases hid : (s.drop 1).take 5 = cd001
        · rw [if_neg (by simpa using hid), if_pos hb]
        · rw [if_pos hid]
    · rw [if_neg (by omega), if_pos h0]
      rcases hbad with hb | hb
      · rw [if_pos hb]
      · by_cases hid : (s.drop 1).take 5 = cd001
        · rw [if_neg (by simpa using hid), if_pos hb]
        · rw [if_pos hid]
    · rw [if_neg (by omega), if_neg (by omega), if_pos h0]
      rcases hbad with hb | hb
      · rw [if_pos hb]
      · by_cases hid : (s.drop 1).take 5 = cd001
        · rw [if_neg (by simpa using hid), if_pos hb]
        · rw [if_pos hid]
  · intro h0 hid hver
    simp only [vdFromSector]
    rw [if_neg (by omega), if_pos h0, if_neg (by simpa using hid),
      if_neg (by simpa using hver)]
  · intro h0
    simp only [vdFromSector]
    rw [if_neg (by omega), if_neg (by omega), if_neg (by omega), if_neg (by omega),
      if_pos h0]
  · intro h0
    simp only [vdFromSector]
    rw [if_neg (by omega), if_neg (by omega), if_neg (by omega), if_neg (by omega),
      if_neg (by omega), if_pos h0]
  · intro h0 h1 h2 h3 h255
    simp only [vdFromSector]
    rw [if_neg (by omega), if_neg h0, if_neg h1, if_neg h2, if_neg h3, if_neg h255]

/-- C4 amended witness: a well-formed Boot Record sector is accepted with the
sliced fields, and a sector with the unregistered type byte 9 is rejected,
instantiating the amended theorem. -/
theorem c4_amended_witness :
    vdFromSector c4BootSector =
      .ok (.bootRecord ((c4BootSector.drop 7).take 32) (((c4BootSector.drop 7).drop 32).take 32)
        ((c4BootSector.drop 7).drop 64)) ∧
    vdFromSector c4UnknownType = .err .valueErr :=
  ⟨(c4_amended_descriptor_checks c4BootSector (by
      show (0 :: 67 :: 68 :: 48 :: 48 :: 49 :: 1 :: List.replicate 2041 0).length = 2048
      simp only [List.length_cons, List.length_replicate])).2.1 rfl rfl rfl,
   (c4_amended_descriptor_checks c4UnknownType (by
      show (9 :: 67 :: 68 :: 48 :: 48 :: 49 :: 1 :: List.replicate 2041 0).length = 2048
      simp only [List.length_cons, List.length_replicate])).2.2.2.2
     (by decide) (by decide) (by decide) (by decide) (by decide)⟩

set_option maxRecDepth 40000 in
/-- C3: evidence that DirectoryRecord.get_childs loses children recorded
after zero padding at the end of a logical block.  On a directory of
data_length 256 over 128-byte logical blocks whose first block holds the two
dot records plus the child A followed by zero padding, and whose second block
holds the child B, get_childs returns only A — the loop stops at the first
zero length byte and never resumes at the next block boundary — while B
parses successfully at byte offset 128 of the same extent data, so the
directory's children do not cover every on-disc child record. -/
theorem c3_get_childs_loses_after_padding :
    isoGetChilds 128 c3Blocks c3Root = .ok [c3RecA] ∧
    parseDirRecord ((isoReadExtent 128 c3Blocks 100 256).drop 128) = .ok c3RecB := by
  decide

end DumpDisc
